import Mathlib

/-!
Shallow embedding of the prodash rendering core, following the two source
files `src/line/draw.rs` (the line-mode diff renderer) and
`src/tui/engine.rs` (the dashboard event loop), together with theorems
checking the natural-language specification against it.

Machine integers (`usize`, `u16`, `u8`) are modelled as `Nat`; none of the
properties below involve overflow, and subtraction on `Nat` is truncated at
zero exactly like Rust's `saturating_sub`.
-/

namespace Prodash

/-- Display width of a string, modelling the unicode-width crate's
`str::width()` (an external dependency). Strings appearing in the claims
are ASCII, for which the display width is the character count; wide and
zero-width characters are not modelled. -/
def strWidth (s : String) : Nat := s.length

/-- A run of `n` spaces, the result of `format!("{:>n$}", "")`. -/
def spaces (n : Nat) : String := String.mk (List.replicate n ' ')

/-- Terminal colors used by the two renderers (a fragment of
`ansi_term::Color`). -/
inductive Color where
  | White
  | Green
  | Red
  | Yellow
deriving DecidableEq

/-- An `ansi_term` style: optional foreground, optional background, bold
and dimmed flags (the parts the source uses). -/
structure StyleSpec where
  fg : Option Color := none
  bg : Option Color := none
  bold : Bool := false
  dimmed : Bool := false
deriving DecidableEq

/-- One item written to the output. Styled and raw text carry the printable
characters; `newline` is `writeln!(out)`; `padNewline n` is
`writeln!(out, "{:>n$}", "")` (n spaces, then a newline); `moveUp n` is the
`cursor::MoveUp(n)` escape sequence. -/
inductive OutChunk where
  | raw (s : String)
  | styled (sp : StyleSpec) (s : String)
  | newline
  | padNewline (n : Nat)
  | moveUp (n : Nat)
deriving DecidableEq

/-- The printable width of a chunk, excluding styling codes and cursor
movement. -/
def chunkWidth : OutChunk → Nat
  | .raw s => strWidth s
  | .styled _ s => strWidth s
  | .newline => 0
  | .padNewline n => n
  | .moveUp _ => 0

/-- `crosstermion::color::Brush::new(colored).style(sp).paint(s)`: when
colors are disabled the brush paints plain text. -/
def paint (colored : Bool) (sp : StyleSpec) (s : String) : OutChunk :=
  if colored then .styled sp s else .raw s

/-- Whether a chunk repositions the cursor or overwrites a previous line
(the two chunk forms only the terminal-targeting tree section emits). -/
def OutChunk.isCursorOrOverwrite : OutChunk → Bool
  | .moveUp _ => true
  | .padNewline _ => true
  | _ => false

namespace Tree

/-- `tree::Key`: identifies a node; only its `level()` (nesting depth, a
`u8` in the source) is consumed by the line renderer. -/
structure Key where
  level : Nat
deriving DecidableEq

/-- `tree::Value`: the displayable task state; the line renderer consumes
its `name`. -/
structure Value where
  name : String
deriving DecidableEq

/-- `tree::MessageLevel`. -/
inductive MessageLevel where
  | Info
  | Success
  | Failure
deriving DecidableEq

/-- `tree::Message`. The timestamp is an abstract instant, modelled as a
natural number. -/
structure Message where
  time : Nat
  level : MessageLevel
  origin : String
  message : String
deriving DecidableEq

/-- Modelled from the spec: the Snapshot Source (`tree::Root` lives outside
the two given source files). §6 gives its contract: `sorted_snapshot(out)`
yields the ordered `(key, value)` view, `copy_new_messages(out, cursor)`
yields messages and an advanced cursor, `deep_clone`/`deep_eq` are value
copy and value equality. We model the root by its two observable views:
the sorted task snapshot and the append-only message log. -/
structure Root where
  tasks : List (Key × Value)
  messages : List Message
deriving DecidableEq

/-- `tree::Level::max_value()`: the level is a `u8` in the source. -/
def levelMax : Nat := 255

end Tree

namespace Line

/-- Modelled from the spec: `crate::time::format_time_for_messages` (the
`time` module is not among the given sources). The claims only depend on
whether a timestamp prefix is present, not on its exact shape. -/
def format_time_for_messages (t : Nat) : String := toString t

/-- Modelled from the spec: `tree::Root::copy_new_messages(&mut out, cursor)`
(§4.1 step 1: "Copy-and-advance the message cursor against the Snapshot
Source; append any newly produced messages to the accumulated list"). The
cursor is the number of log messages already copied; messages past it are
appended to `buf` and the advanced cursor is returned. -/
def copy_new_messages (log : List Tree.Message) (buf : List Tree.Message)
    (cursor : Option Nat) : List Tree.Message × Nat :=
  (buf ++ log.drop (cursor.getD 0), log.length)

/-- `line::draw::State` (the Render State of the line renderer). -/
structure State where
  tree : List (Tree.Key × Tree.Value) := []
  messages : List Tree.Message := []
  from_copying : Option Nat := none
  max_message_origin_size : Nat := 0
  /-- The amount of blocks per line we have written last time (`Vec<u16>`). -/
  blocks_per_line : List Nat := []
  /-- Amount of times we drew so far. -/
  ticks : Nat := 0
deriving DecidableEq

/-- `line::draw::Options`. The level filter is an inclusive range. -/
structure Options where
  level_filter : Option (Nat × Nat) := none
  keep_running_if_progress_is_empty : Bool := true
  output_is_terminal : Bool := true
  colored : Bool := true
  timestamp : Bool := false

/-- The error kind of `std::io::Error`; the renderer only ever constructs
`ErrorKind::Other`. A real write failure would carry a different kind, but
the underlying writer is modelled as infallible. -/
inductive ErrorKind where
  | Other
deriving DecidableEq

/-- A `std::io::Error` as observable by the caller: its kind and message. -/
structure IoError where
  kind : ErrorKind
  message : String
deriving DecidableEq

/-- `to_color` from the `messages` function in `line/draw.rs`. -/
def to_color : Tree.MessageLevel → Color
  | .Info => .White
  | .Success => .Green
  | .Failure => .Red

/-- The chunks written by one `writeln!` of the `messages` function for a
single message, given the running maximum origin width `maxOrigin`
(already updated to cover this message). Mirrors the format string
`" {}{} {}{:>overdraw_size$}"`: a leading space; if timestamps are enabled,
the painted time and a space; the dimmed origin block
`format!("{:>fill_size$}{}", "", origin)` with
`fill_size = maxOrigin - origin.width()`; a space; the message painted
bold in the level color. `overdraw_size` is `0`, so the final field is
empty and contributes nothing. -/
def messageLineChunks (colored timestamp : Bool) (maxOrigin : Nat)
    (m : Tree.Message) : List OutChunk :=
  [OutChunk.raw " "]
    ++ (if timestamp then
          [paint colored
              { fg := some (to_color m.level), bg := some Color.Yellow,
                dimmed := true }
              (format_time_for_messages m.time),
            OutChunk.raw " "]
        else [])
    ++ [paint colored { dimmed := true }
          (spaces (maxOrigin - strWidth m.origin) ++ m.origin)]
    ++ [OutChunk.raw " ",
        paint colored { fg := some (to_color m.level), bold := true }
          m.message,
        OutChunk.newline]

/-- The `messages` function of `line/draw.rs`: for each accumulated message
it raises `max_message_origin_size` to cover the origin's width and prints
one line. Returns the final maximum and the emitted chunks. The source
zips the messages with `blocks_per_line.iter().chain(repeat(&0))`, but the
zipped value (`last_drawn_line_length`) is unused because `overdraw_size`
is `0`, and the chained repetition means the zip never truncates the
message list, so the iteration is over all messages. -/
def messagesStep (colored timestamp : Bool) (maxOrigin : Nat) :
    List Tree.Message → Nat × List OutChunk
  | [] => (maxOrigin, [])
  | m :: ms =>
    let mx := Nat.max maxOrigin (strWidth m.origin)
    let rest := messagesStep colored timestamp mx ms
    (rest.1, messageLineChunks colored timestamp mx m ++ rest.2)

/-- `format_progress` from `line/draw.rs`: indentation proportional to the
key's level, the tick counter in yellow, the task name green-on-red, and a
trailing literal. -/
def format_progress (key : Tree.Key) (progress : Tree.Value) (ticks : Nat) :
    List OutChunk :=
  [OutChunk.styled {} (spaces key.level),
   OutChunk.styled { fg := some Color.Yellow } (toString ticks),
   OutChunk.styled { fg := some Color.Green, bg := some Color.Red }
     progress.name,
   OutChunk.styled {} "long text long text long text long text long text long text long text long text long text long text long text "]

/-- `block_count_sans_ansi_codes`: the summed printable width of the
tokens, excluding styling codes. -/
def block_count_sans_ansi_codes (tokens : List OutChunk) : Nat :=
  (tokens.map chunkWidth).sum

/-- The end-of-line write for one drawn task line: if the width recorded
last frame exceeds the current width, fill to the end of the old line to
overwrite what was previously there; otherwise a plain newline. -/
def lineTail (blocks_in_last_iteration current_block_count : Nat) : OutChunk :=
  if blocks_in_last_iteration > current_block_count then
    .padNewline (blocks_in_last_iteration - current_block_count)
  else
    .newline

/-- The per-line drawing loop of `all`: the filtered tasks zipped with
`blocks_per_line.iter_mut()`. For each pair the task's tokens are written,
followed by `lineTail`, and the recorded width is replaced by the current
width. Returns the updated width list (entries beyond the zip are
untouched) and the emitted chunks. -/
def drawTreeLines (ticks : Nat) :
    List (Tree.Key × Tree.Value) → List Nat → List Nat × List OutChunk
  | [], blocks => (blocks, [])
  | _ :: _, [] => ([], [])
  | (key, progress) :: tasks, b :: bs =>
    let tokens := format_progress key progress ticks
    let current := block_count_sans_ansi_codes tokens
    let rest := drawTreeLines ticks tasks bs
    (current :: rest.1, (tokens ++ [lineTail b current]) ++ rest.2)

/-- The result of one `all` call: the `io::Result` (`err = some e` is an
`Err` return), the renderer state after the call (Rust mutates it in
place, so mutations made before an early return persist), and everything
written to `out`. -/
structure DrawResult where
  err : Option IoError
  state : State
  out : List OutChunk
deriving DecidableEq

/-- The level-range filter applied to the tree snapshot: the configured
inclusive range, `0..=Level::max_value()` when unset. -/
def filterVisible (config : Options) (tree : List (Tree.Key × Tree.Value)) :
    List (Tree.Key × Tree.Value) :=
  let level_range := config.level_filter.getD (0, Tree.levelMax)
  tree.filter
    (fun kv => decide (level_range.1 ≤ kv.1.level ∧ kv.1.level ≤ level_range.2))

/-- The `if config.output_is_terminal` block of `all`: filter the tasks to
the level range, grow `blocks_per_line` with zeros when it is shorter than
the visible line count, draw each visible line, then either blank out each
now-unused recorded line to its recorded width followed by a cursor move
up by the full previously-tracked count and a shrink of the record
(`resize`), or — when nothing shrank — a cursor move up by the drawn line
count. Returns the new `blocks_per_line` and the emitted chunks. -/
def treeSection (config : Options) (ticks : Nat)
    (tree : List (Tree.Key × Tree.Value)) (blocks_per_line : List Nat) :
    List Nat × List OutChunk :=
  let visible := filterVisible config tree
  let lines_to_be_drawn := visible.length
  let blocks0 :=
    if blocks_per_line.length < lines_to_be_drawn then
      blocks_per_line ++
        List.replicate (lines_to_be_drawn - blocks_per_line.length) 0
    else blocks_per_line
  let drawn := drawTreeLines ticks visible blocks0
  if blocks0.length > lines_to_be_drawn then
    (drawn.1.take lines_to_be_drawn,
      drawn.2 ++ (drawn.1.drop lines_to_be_drawn).map OutChunk.padNewline
        ++ [OutChunk.moveUp blocks0.length])
  else
    (drawn.1, drawn.2 ++ [OutChunk.moveUp lines_to_be_drawn])

/-- `line::draw::all`, translated clause by clause:
refresh the tree snapshot; fail with the benign stop error if the tree is
empty and the renderer must not keep running; copy-and-advance new
messages; print them; then, only when output targets a terminal, emit the
tree section (`treeSection`); finally bump `ticks`. -/
def all (progress : Tree.Root) (state : State) (config : Options) : DrawResult :=
  let st0 := { state with tree := progress.tasks }
  if !config.keep_running_if_progress_is_empty && st0.tree.isEmpty then
    { err := some { kind := .Other, message := "stop as progress is empty" },
      state := st0, out := [] }
  else
    let copied := copy_new_messages progress.messages st0.messages st0.from_copying
    let st1 := { st0 with messages := copied.1, from_copying := some copied.2 }
    let msg := messagesStep config.colored config.timestamp
      st1.max_message_origin_size st1.messages
    let st2 := { st1 with max_message_origin_size := msg.1 }
    if config.output_is_terminal then
      let ts := treeSection config st2.ticks st2.tree st2.blocks_per_line
      let st3 := { st2 with blocks_per_line := ts.1 }
      { err := none,
        state := { st3 with ticks := st3.ticks + 1 },
        out := msg.2 ++ ts.2 }
    else
      { err := none, state := { st2 with ticks := st2.ticks + 1 }, out := msg.2 }

end Line

namespace Tui

/-- `termion::event::Key` (the variants the engine distinguishes, plus a
representative sample of the others, all of which fall into the wildcard
arm of the key table). -/
inductive Key where
  | Esc
  | Char (c : Char)
  | Ctrl (c : Char)
  | Alt (c : Char)
  | Backspace
  | Up
  | Down
  | Home
deriving DecidableEq

/-- `tui::layout::Rect` (fields are `u16` in the source). -/
structure Rect where
  x : Nat := 0
  y : Nat := 0
  width : Nat := 0
  height : Nat := 0
deriving DecidableEq

/-- `tui::engine::Line`, a line for the information side bar. -/
inductive Line where
  | Title (s : String)
  | Text (s : String)
deriving DecidableEq

/-- `tui::engine::Interrupt`: the public interrupt mode. -/
inductive Interrupt where
  | Instantly
  | Deferred
deriving DecidableEq

/-- `tui::engine::InterruptDrawInfo`: the loop's internal interrupt state;
the Boolean signals whether an interrupt is requested. -/
inductive InterruptDrawInfo where
  | Instantly
  | Deferred (interrupt_requested : Bool)
deriving DecidableEq

/-- The progress tree value observed when an event is processed.
`deep_eq` is value equality and `deep_clone` a value copy, per the
Snapshot Source contract of the spec (the tree itself is external). -/
abbrev RootValue := Tree.Root

/-- `tui::engine::Event`. -/
inductive Event where
  | Tick
  | Input (key : Key)
  | SetWindowSize (bound : Rect)
  | SetTitle (title : String)
  | SetInformation (info : List Line)
  | SetInterruptMode (mode : Interrupt)
deriving DecidableEq

/-- Modelled from the spec: the Dashboard View State (`tui::draw::State`,
whose file is not among the given sources; these are exactly the fields
`engine.rs` reads or writes, with §3's description: hide/maximize toggles,
saturating non-negative scroll offsets, title, information lines and the
user-provided window size). The scroll offsets are non-negative and
saturate at zero; the spec gives no upper bound, so `saturating_add` is
exact addition and `saturating_sub` is `Nat` (truncated) subtraction. -/
structure ViewState where
  title : String := ""
  hide_messages : Bool := false
  messages_fullscreen : Bool := false
  message_offset : Nat := 0
  task_offset : Nat := 0
  hide_info : Bool := false
  maximize_info : Bool := false
  information : List Line := []
  user_provided_window_size : Option Rect := none
deriving DecidableEq

/-- The mutable state of the `render_with_input` event loop: the draw
state, the interrupt mode, the frame counter `tick` (incremented exactly
when a frame is rendered) and the retained deep clone `previous_root`
used by the redraw-skip optimization. -/
structure LoopState where
  state : ViewState := {}
  interrupt_mode : InterruptDrawInfo := .Instantly
  tick : Nat := 0
  previous_root : Option RootValue := none
deriving DecidableEq

/-- The loop state at entry of the event loop (`engine.rs` lines 143-159):
interrupt mode `Instantly`, `tick = 0`, no retained previous root. -/
def initialLoopState : LoopState := {}

/-- The quit-key test of the first match arm:
`Key::Esc | Key::Char('q') | Key::Ctrl('c') | Key::Ctrl('[')`. -/
def isQuitKey (key : Key) : Bool :=
  key = Key.Esc || key = Key.Char 'q' || key = Key.Ctrl 'c' ||
    key = Key.Ctrl (Char.ofNat 91)

/-- The backtick character, `Char('`')` in the source. -/
def backquote : Char := Char.ofNat 96

/-- The result of the `match event` statement: `none` means `break` (the
loop ends); otherwise the updated view state, interrupt mode, and the
`skip_redraw` flag. -/
def matchEvent (state : ViewState) (interrupt_mode : InterruptDrawInfo)
    (event : Event) : Option (ViewState × InterruptDrawInfo × Bool) :=
  match event with
  | .Tick => some (state, interrupt_mode, false)
  | .Input key =>
    if isQuitKey key then
      match interrupt_mode with
      | .Instantly => none
      | .Deferred _ => some (state, .Deferred true, false)
    else if key = Key.Char backquote then
      some ({ state with hide_messages := !state.hide_messages },
        interrupt_mode, false)
    else if key = Key.Char '~' then
      some ({ state with messages_fullscreen := !state.messages_fullscreen },
        interrupt_mode, false)
    else if key = Key.Char 'J' then
      some ({ state with message_offset := state.message_offset + 1 },
        interrupt_mode, false)
    else if key = Key.Char 'D' then
      some ({ state with message_offset := state.message_offset + 10 },
        interrupt_mode, false)
    else if key = Key.Char 'j' then
      some ({ state with task_offset := state.task_offset + 1 },
        interrupt_mode, false)
    else if key = Key.Char 'd' then
      some ({ state with task_offset := state.task_offset + 10 },
        interrupt_mode, false)
    else if key = Key.Char 'K' then
      some ({ state with message_offset := state.message_offset - 1 },
        interrupt_mode, false)
    else if key = Key.Char 'U' then
      some ({ state with message_offset := state.message_offset - 10 },
        interrupt_mode, false)
    else if key = Key.Char 'k' then
      some ({ state with task_offset := state.task_offset - 1 },
        interrupt_mode, false)
    else if key = Key.Char 'u' then
      some ({ state with task_offset := state.task_offset - 10 },
        interrupt_mode, false)
    else if key = Key.Char '[' then
      some ({ state with hide_info := !state.hide_info },
        interrupt_mode, false)
    else if key = Key.Char (Char.ofNat 123) then
      some ({ state with maximize_info := !state.maximize_info },
        interrupt_mode, false)
    else
      some (state, interrupt_mode, true)
  | .SetWindowSize bound =>
    some ({ state with user_provided_window_size := some bound },
      interrupt_mode, false)
  | .SetTitle title =>
    some ({ state with title := title }, interrupt_mode, false)
  | .SetInformation info =>
    some ({ state with information := info }, interrupt_mode, false)
  | .SetInterruptMode mode =>
    match mode with
    | .Instantly =>
      match interrupt_mode with
      | .Deferred true => none
      | _ => some (state, .Instantly, false)
    | .Deferred =>
      some (state,
        .Deferred (match interrupt_mode with
          | .Deferred interrupt_requested => interrupt_requested
          | _ => false),
        false)

/-- The redraw-skip block (`engine.rs` lines 209-217): when the redraw was
not already suppressed and `redraw_only_on_state_change` is enabled, the
retained previous root is compared (`deep_eq`) against the current tree:
if equal the redraw is skipped and the clone kept, otherwise a fresh deep
clone is retained. Returns the final `skip_redraw` flag and the retained
root. -/
def redrawSkip (redraw_only_on_state_change skip_redraw : Bool)
    (previous_root : Option RootValue) (progress : RootValue) :
    Bool × Option RootValue :=
  if !skip_redraw && redraw_only_on_state_change then
    match previous_root with
    | some prev =>
      if prev = progress then (true, some prev) else (false, some progress)
    | none => (false, some progress)
  else
    (skip_redraw, previous_root)

/-- One iteration of the `while let Some(event)` loop body: the event
match, then the redraw-skip block, then — when the redraw is not skipped —
the render step, of which we model the frame counter `tick += 1` (the
actual drawing writes to the full-screen buffer through the external
widget collaborators and is out of scope). `none` means the loop breaks. -/
def processEvent (redraw_only_on_state_change : Bool) (ls : LoopState)
    (event : Event) (progress : RootValue) : Option LoopState :=
  match matchEvent ls.state ls.interrupt_mode event with
  | none => none
  | some (state, interrupt_mode, skip_redraw) =>
    let skipped := redrawSkip redraw_only_on_state_change skip_redraw
      ls.previous_root progress
    some { state := state, interrupt_mode := interrupt_mode,
           previous_root := skipped.2,
           tick := if skipped.1 then ls.tick else ls.tick + 1 }

/-- The event loop run over a finite prefix of the merged event stream;
each event is paired with the deep value of the progress tree at the
moment it is processed (the live tree mutates externally between events).
Returns the final loop state and whether the loop ended via `break`. -/
def runLoop (redraw_only_on_state_change : Bool) :
    LoopState → List (Event × RootValue) → LoopState × Bool
  | ls, [] => (ls, false)
  | ls, (event, progress) :: rest =>
    match processEvent redraw_only_on_state_change ls event progress with
    | none => (ls, true)
    | some next => runLoop redraw_only_on_state_change next rest

/-- `engine.rs` line 158:
`recompute_column_width_every_nth_frame.unwrap_or(1).max(1)`. -/
def storeTaskSizeEvery (recompute_column_width_every_nth_frame : Option Nat) :
    Nat :=
  Nat.max ((recompute_column_width_every_nth_frame).getD 1) 1

end Tui

end Prodash

open Prodash

/-- C10: for every configuration, the column-width recompute interval used
by the dashboard loop is at least 1: `recompute_column_width_every_nth_frame`
of `None` or `Some(0)` is clamped to 1, so the per-frame
`tick % store_task_size_every` computation never takes a modulus by zero
for any frame number. -/
theorem claim_C10_column_width_interval :
    Tui.storeTaskSizeEvery none = 1 ∧
    Tui.storeTaskSizeEvery (some 0) = 1 ∧
    ∀ recompute : Option Nat,
      0 < Tui.storeTaskSizeEvery recompute ∧
      ∀ tick : Nat,
        tick % Tui.storeTaskSizeEvery recompute < Tui.storeTaskSizeEvery recompute := by
  refine ⟨rfl, rfl, fun recompute => ?_⟩
  have hpos : 0 < Tui.storeTaskSizeEvery recompute :=
    lt_of_lt_of_le Nat.zero_lt_one (Nat.le_max_right _ 1)
  exact ⟨hpos, fun tick => Nat.mod_lt tick hpos⟩

/-- C1: the dashboard control loop's interrupt-mode state machine: the loop
starts in `Instantly`; in `Instantly` a cancellation key ends the loop
(`processEvent` yields `none`, i.e. `break`); in `Deferred(false)` a
cancellation key transitions to `Deferred(true)` and the loop continues;
`SetInterruptMode(Instantly)` received in `Deferred(true)` ends the loop,
while received in any other state (`Instantly` or `Deferred(false)`) it
sets the mode to `Instantly` and the loop continues; and
`SetInterruptMode(Deferred)` preserves a pending request: `Deferred(p)`
stays `Deferred(p)`. -/
theorem claim_C1_interrupt_state_machine :
    Tui.initialLoopState.interrupt_mode = Tui.InterruptDrawInfo.Instantly ∧
    (∀ (redraw : Bool) (ls : Tui.LoopState) (key : Tui.Key) (t : Tui.RootValue),
      Tui.isQuitKey key = true →
      ls.interrupt_mode = Tui.InterruptDrawInfo.Instantly →
      Tui.processEvent redraw ls (Tui.Event.Input key) t = none) ∧
    (∀ (redraw : Bool) (ls : Tui.LoopState) (key : Tui.Key) (t : Tui.RootValue),
      Tui.isQuitKey key = true →
      ls.interrupt_mode = Tui.InterruptDrawInfo.Deferred false →
      ∃ next, Tui.processEvent redraw ls (Tui.Event.Input key) t = some next ∧
        next.interrupt_mode = Tui.InterruptDrawInfo.Deferred true) ∧
    (∀ (redraw : Bool) (ls : Tui.LoopState) (t : Tui.RootValue),
      ls.interrupt_mode = Tui.InterruptDrawInfo.Deferred true →
      Tui.processEvent redraw ls
        (Tui.Event.SetInterruptMode Tui.Interrupt.Instantly) t = none) ∧
    (∀ (redraw : Bool) (ls : Tui.LoopState) (t : Tui.RootValue),
      ls.interrupt_mode = Tui.InterruptDrawInfo.Instantly ∨
        ls.interrupt_mode = Tui.InterruptDrawInfo.Deferred false →
      ∃ next, Tui.processEvent redraw ls
          (Tui.Event.SetInterruptMode Tui.Interrupt.Instantly) t = some next ∧
        next.interrupt_mode = Tui.InterruptDrawInfo.Instantly) ∧
    (∀ (redraw : Bool) (ls : Tui.LoopState) (t : Tui.RootValue) (p : Bool),
      ls.interrupt_mode = Tui.InterruptDrawInfo.Deferred p →
      ∃ next, Tui.processEvent redraw ls
          (Tui.Event.SetInterruptMode Tui.Interrupt.Deferred) t = some next ∧
        next.interrupt_mode = Tui.InterruptDrawInfo.Deferred p) := by
  refine ⟨rfl, ?_, ?_, ?_, ?_, ?_⟩
  · intro redraw ls key t hq him
    simp [Tui.processEvent, Tui.matchEvent, hq, him]
  · intro redraw ls key t hq him
    exact ⟨{ state := ls.state,
             interrupt_mode := Tui.InterruptDrawInfo.Deferred true,
             previous_root := (Tui.redrawSkip redraw false ls.previous_root t).2,
             tick := if (Tui.redrawSkip redraw false ls.previous_root t).1
               then ls.tick else ls.tick + 1 },
      by simp [Tui.processEvent, Tui.matchEvent, hq, him], rfl⟩
  · intro redraw ls t him
    simp [Tui.processEvent, Tui.matchEvent, him]
  · intro redraw ls t him
    refine ⟨{ state := ls.state,
              interrupt_mode := Tui.InterruptDrawInfo.Instantly,
              previous_root := (Tui.redrawSkip redraw false ls.previous_root t).2,
              tick := if (Tui.redrawSkip redraw false ls.previous_root t).1
                then ls.tick else ls.tick + 1 }, ?_, rfl⟩
    rcases him with him | him <;>
      simp [Tui.processEvent, Tui.matchEvent, him]
  · intro redraw ls t p him
    exact ⟨{ state := ls.state,
             interrupt_mode := Tui.InterruptDrawInfo.Deferred p,
             previous_root := (Tui.redrawSkip redraw false ls.previous_root t).2,
             tick := if (Tui.redrawSkip redraw false ls.previous_root t).1
               then ls.tick else ls.tick + 1 },
      by simp [Tui.processEvent, Tui.matchEvent, him], rfl⟩

/-- Witness for C1: the state machine exercised at concrete inputs — `Esc`
in the initial (`Instantly`) state breaks the loop; `q` in
`Deferred(false)` yields `Deferred(true)`; `SetInterruptMode(Instantly)`
in `Deferred(true)` breaks, while in `Instantly` and in `Deferred(false)`
it continues with the mode set to `Instantly`; `SetInterruptMode(Deferred)`
in `Deferred(true)` keeps the pending request. -/
theorem claim_C1_interrupt_state_machine_witness :
    Tui.isQuitKey Tui.Key.Esc = true ∧
    Tui.initialLoopState.interrupt_mode = Tui.InterruptDrawInfo.Instantly ∧
    Tui.processEvent false Tui.initialLoopState
      (Tui.Event.Input Tui.Key.Esc) ⟨[], []⟩ = none ∧
    (∃ next, Tui.processEvent false
        { Tui.initialLoopState with
            interrupt_mode := Tui.InterruptDrawInfo.Deferred false }
        (Tui.Event.Input (Tui.Key.Char 'q')) ⟨[], []⟩ = some next ∧
      next.interrupt_mode = Tui.InterruptDrawInfo.Deferred true) ∧
    Tui.processEvent false
      { Tui.initialLoopState with
          interrupt_mode := Tui.InterruptDrawInfo.Deferred true }
      (Tui.Event.SetInterruptMode Tui.Interrupt.Instantly) ⟨[], []⟩ = none ∧
    (∃ next, Tui.processEvent false Tui.initialLoopState
        (Tui.Event.SetInterruptMode Tui.Interrupt.Instantly) ⟨[], []⟩ =
          some next ∧
      next.interrupt_mode = Tui.InterruptDrawInfo.Instantly) ∧
    (∃ next, Tui.processEvent false
        { Tui.initialLoopState with
            interrupt_mode := Tui.InterruptDrawInfo.Deferred false }
        (Tui.Event.SetInterruptMode Tui.Interrupt.Instantly) ⟨[], []⟩ =
          some next ∧
      next.interrupt_mode = Tui.InterruptDrawInfo.Instantly) ∧
    (∃ next, Tui.processEvent false
        { Tui.initialLoopState with
            interrupt_mode := Tui.InterruptDrawInfo.Deferred true }
        (Tui.Event.SetInterruptMode Tui.Interrupt.Deferred) ⟨[], []⟩ = some next ∧
      next.interrupt_mode = Tui.InterruptDrawInfo.Deferred true) :=
  ⟨by decide, rfl,
    claim_C1_interrupt_state_machine.2.1 false Tui.initialLoopState
      Tui.Key.Esc ⟨[], []⟩ (by decide) rfl,
    claim_C1_interrupt_state_machine.2.2.1 false
      { Tui.initialLoopState with
          interrupt_mode := Tui.InterruptDrawInfo.Deferred false }
      (Tui.Key.Char 'q') ⟨[], []⟩ (by decide) rfl,
    claim_C1_interrupt_state_machine.2.2.2.1 false
      { Tui.initialLoopState with
          interrupt_mode := Tui.InterruptDrawInfo.Deferred true }
      ⟨[], []⟩ rfl,
    claim_C1_interrupt_state_machine.2.2.2.2.1 false Tui.initialLoopState
      ⟨[], []⟩ (Or.inl rfl),
    claim_C1_interrupt_state_machine.2.2.2.2.1 false
      { Tui.initialLoopState with
          interrupt_mode := Tui.InterruptDrawInfo.Deferred false }
      ⟨[], []⟩ (Or.inr rfl),
    claim_C1_interrupt_state_machine.2.2.2.2.2 false
      { Tui.initialLoopState with
          interrupt_mode := Tui.InterruptDrawInfo.Deferred true }
      ⟨[], []⟩ true rfl⟩

/-- C5: the dashboard input key table is exactly as enumerated: Esc, q,
Ctrl-C and Ctrl-[ are the cancellation keys; backtick toggles the message
pane; `~` toggles fullscreen messages; `[` toggles the info pane; `{`
maximizes the info pane; j/k adjust the task scroll offset by +1 and -1,
d/u by +10 and -10; J/K adjust the message scroll offset by +1 and -1,
D/U by +10 and -10; every offset saturates at zero (`Nat` subtraction is truncated,
so scrolling up by 10 from offset 4 yields 0); and any key not in the
table suppresses the redraw (the loop state is returned unchanged). -/
theorem claim_C5_key_table :
    (∀ key : Tui.Key, Tui.isQuitKey key = true ↔
      (key = Tui.Key.Esc ∨ key = Tui.Key.Char 'q' ∨ key = Tui.Key.Ctrl 'c' ∨
        key = Tui.Key.Ctrl (Char.ofNat 91))) ∧
    (∀ (s : Tui.ViewState) (im : Tui.InterruptDrawInfo),
      Tui.matchEvent s im (Tui.Event.Input (Tui.Key.Char Tui.backquote)) =
        some ({ s with hide_messages := !s.hide_messages }, im, false) ∧
      Tui.matchEvent s im (Tui.Event.Input (Tui.Key.Char '~')) =
        some ({ s with messages_fullscreen := !s.messages_fullscreen }, im, false) ∧
      Tui.matchEvent s im (Tui.Event.Input (Tui.Key.Char '[')) =
        some ({ s with hide_info := !s.hide_info }, im, false) ∧
      Tui.matchEvent s im (Tui.Event.Input (Tui.Key.Char (Char.ofNat 123))) =
        some ({ s with maximize_info := !s.maximize_info }, im, false) ∧
      Tui.matchEvent s im (Tui.Event.Input (Tui.Key.Char 'j')) =
        some ({ s with task_offset := s.task_offset + 1 }, im, false) ∧
      Tui.matchEvent s im (Tui.Event.Input (Tui.Key.Char 'k')) =
        some ({ s with task_offset := s.task_offset - 1 }, im, false) ∧
      Tui.matchEvent s im (Tui.Event.Input (Tui.Key.Char 'd')) =
        some ({ s with task_offset := s.task_offset + 10 }, im, false) ∧
      Tui.matchEvent s im (Tui.Event.Input (Tui.Key.Char 'u')) =
        some ({ s with task_offset := s.task_offset - 10 }, im, false) ∧
      Tui.matchEvent s im (Tui.Event.Input (Tui.Key.Char 'J')) =
        some ({ s with message_offset := s.message_offset + 1 }, im, false) ∧
      Tui.matchEvent s im (Tui.Event.Input (Tui.Key.Char 'K')) =
        some ({ s with message_offset := s.message_offset - 1 }, im, false) ∧
      Tui.matchEvent s im (Tui.Event.Input (Tui.Key.Char 'D')) =
        some ({ s with message_offset := s.message_offset + 10 }, im, false) ∧
      Tui.matchEvent s im (Tui.Event.Input (Tui.Key.Char 'U')) =
        some ({ s with message_offset := s.message_offset - 10 }, im, false)) ∧
    (∀ off step : Nat, off ≤ step → off - step = 0) ∧
    (∀ (redraw : Bool) (ls : Tui.LoopState) (t : Tui.RootValue) (key : Tui.Key),
      Tui.isQuitKey key = false →
      (∀ c : Char, key = Tui.Key.Char c →
        ¬ c ∈ [Tui.backquote, '~', 'J', 'D', 'j', 'd', 'K', 'U', 'k', 'u', '[',
          Char.ofNat 123]) →
      Tui.processEvent redraw ls (Tui.Event.Input key) t = some ls) := by
  refine ⟨?_, ?_, ?_, ?_⟩
  · intro key
    cases key <;> simp [Tui.isQuitKey]
  · intro s im
    refine ⟨?_, ?_, ?_, ?_, ?_, ?_, ?_, ?_, ?_, ?_, ?_, ?_⟩ <;> rfl
  · intro off step h
    exact Nat.sub_eq_zero_of_le h
  · intro redraw ls t key hq hch
    have hmatch : Tui.matchEvent ls.state ls.interrupt_mode
        (Tui.Event.Input key) = some (ls.state, ls.interrupt_mode, true) := by
      cases key with
      | Char c =>
        have hc := hch c rfl
        simp only [List.mem_cons, List.not_mem_nil, or_false, not_or] at hc
        obtain ⟨h1, h2, h3, h4, h5, h6, h7, h8, h9, h10, h11, h12⟩ := hc
        simp [Tui.matchEvent, hq, h1, h2, h3, h4, h5, h6, h7, h8, h9, h10, h11, h12]
      | Esc => simp [Tui.isQuitKey] at hq
      | Ctrl c => simp [Tui.matchEvent, hq]
      | Alt c => simp [Tui.matchEvent, hq]
      | Backspace => simp [Tui.matchEvent, hq]
      | Up => simp [Tui.matchEvent, hq]
      | Down => simp [Tui.matchEvent, hq]
      | Home => simp [Tui.matchEvent, hq]
    simp [Tui.processEvent, hmatch, Tui.redrawSkip]

/-- Witness for C5: the key table exercised concretely — `u` (scroll up by
10) from task offset 4 saturates to 0, and the unrecognized key `x`
leaves the whole loop state unchanged (redraw suppressed). -/
theorem claim_C5_key_table_witness :
    Tui.isQuitKey (Tui.Key.Ctrl 'c') = true ∧
    Tui.matchEvent { task_offset := 4 } Tui.InterruptDrawInfo.Instantly
      (Tui.Event.Input (Tui.Key.Char 'u')) =
      some ({ task_offset := 0 }, Tui.InterruptDrawInfo.Instantly, false) ∧
    ((4 : Nat) ≤ 10 ∧ (4 : Nat) - 10 = 0) ∧
    Tui.isQuitKey (Tui.Key.Char 'x') = false ∧
    Tui.processEvent false Tui.initialLoopState
      (Tui.Event.Input (Tui.Key.Char 'x')) ⟨[], []⟩ = some Tui.initialLoopState := by
  refine ⟨by decide, ?_, ⟨by decide, claim_C5_key_table.2.2.1 4 10 (by decide)⟩,
    by decide, claim_C5_key_table.2.2.2 false Tui.initialLoopState ⟨[], []⟩
      (Tui.Key.Char 'x') (by decide) ?_⟩
  · have h := (claim_C5_key_table.2.1 { task_offset := 4 }
      Tui.InterruptDrawInfo.Instantly).2.2.2.2.2.2.2.1
    simpa using h
  · intro c hc hmem
    cases hc
    revert hmem
    decide

/-- C4: with `redraw_only_on_state_change` enabled, for every event whose
redraw is not otherwise suppressed: if a retained deep clone exists and
deep-equals the current tree, the render step is skipped (the frame
counter stays) and the retained clone is kept; otherwise the current tree
is deep-cloned and retained and the frame is rendered (the frame counter
advances). In particular two consecutive `Tick` events over a deep-equal
tree from the loop's initial state produce exactly one rendered frame. -/
theorem claim_C4_redraw_skip :
    (∀ t : Tui.RootValue,
      Tui.redrawSkip true false (some t) t = (true, some t)) ∧
    (∀ p t : Tui.RootValue, p ≠ t →
      Tui.redrawSkip true false (some p) t = (false, some t)) ∧
    (∀ t : Tui.RootValue,
      Tui.redrawSkip true false none t = (false, some t)) ∧
    (∀ (ls : Tui.LoopState) (ev : Tui.Event) (t : Tui.RootValue)
        (s : Tui.ViewState) (im : Tui.InterruptDrawInfo),
      Tui.matchEvent ls.state ls.interrupt_mode ev = some (s, im, false) →
      (ls.previous_root = some t →
        Tui.processEvent true ls ev t =
          some { state := s, interrupt_mode := im, previous_root := some t,
                 tick := ls.tick }) ∧
      (∀ p, ls.previous_root = some p → p ≠ t →
        Tui.processEvent true ls ev t =
          some { state := s, interrupt_mode := im, previous_root := some t,
                 tick := ls.tick + 1 }) ∧
      (ls.previous_root = none →
        Tui.processEvent true ls ev t =
          some { state := s, interrupt_mode := im, previous_root := some t,
                 tick := ls.tick + 1 })) ∧
    (∀ t : Tui.RootValue,
      (Tui.runLoop true Tui.initialLoopState
        [(Tui.Event.Tick, t), (Tui.Event.Tick, t)]).1.tick = 1) := by
  refine ⟨?_, ?_, ?_, ?_, ?_⟩
  · intro t
    simp [Tui.redrawSkip]
  · intro p t h
    simp [Tui.redrawSkip, h]
  · intro t
    simp [Tui.redrawSkip]
  · intro ls ev t s im hmatch
    refine ⟨?_, ?_, ?_⟩
    · intro hprev
      simp [Tui.processEvent, hmatch, Tui.redrawSkip, hprev]
    · intro p hprev hne
      simp [Tui.processEvent, hmatch, Tui.redrawSkip, hprev, hne]
    · intro hprev
      simp [Tui.processEvent, hmatch, Tui.redrawSkip, hprev]
  · intro t
    simp [Tui.runLoop, Tui.processEvent, Tui.matchEvent, Tui.redrawSkip,
      Tui.initialLoopState]

/-- Witness for C4: the redraw-skip logic at concrete trees — a differing
retained clone forces a re-render and re-clone, and the two-`Tick` run
over an unchanged tree renders exactly one frame. -/
theorem claim_C4_redraw_skip_witness :
    ((⟨[], []⟩ : Tui.RootValue) ≠ ⟨[(⟨0⟩, ⟨"a"⟩)], []⟩) ∧
    Tui.redrawSkip true false (some ⟨[], []⟩) ⟨[(⟨0⟩, ⟨"a"⟩)], []⟩ =
      (false, some ⟨[(⟨0⟩, ⟨"a"⟩)], []⟩) ∧
    Tui.matchEvent Tui.initialLoopState.state
      Tui.initialLoopState.interrupt_mode Tui.Event.Tick =
      some (Tui.initialLoopState.state,
        Tui.initialLoopState.interrupt_mode, false) ∧
    Tui.processEvent true Tui.initialLoopState Tui.Event.Tick ⟨[], []⟩ =
      some { state := Tui.initialLoopState.state,
             interrupt_mode := Tui.initialLoopState.interrupt_mode,
             previous_root := some ⟨[], []⟩,
             tick := Tui.initialLoopState.tick + 1 } ∧
    (Tui.runLoop true Tui.initialLoopState
      [(Tui.Event.Tick, ⟨[], []⟩), (Tui.Event.Tick, ⟨[], []⟩)]).1.tick = 1 :=
  ⟨by decide,
    claim_C4_redraw_skip.2.1 ⟨[], []⟩ ⟨[(⟨0⟩, ⟨"a"⟩)], []⟩ (by decide),
    rfl,
    (claim_C4_redraw_skip.2.2.2.1 Tui.initialLoopState Tui.Event.Tick
      ⟨[], []⟩ Tui.initialLoopState.state
      Tui.initialLoopState.interrupt_mode rfl).2.2 rfl,
    claim_C4_redraw_skip.2.2.2.2 ⟨[], []⟩⟩

/-- Helper: when the tree is empty and the renderer is not configured to
keep running, `all` returns the stop error immediately: the only mutation
already performed is the refresh of the tree scratch buffer, and nothing
has been written. -/
theorem line_all_stop (progress : Tree.Root) (state : Line.State)
    (config : Line.Options)
    (h : (!config.keep_running_if_progress_is_empty &&
      progress.tasks.isEmpty) = true) :
    Line.all progress state config =
      { err := some { kind := Line.ErrorKind.Other,
                      message := "stop as progress is empty" },
        state := { state with tree := progress.tasks },
        out := [] } := by
  simp [Line.all, h]

/-- Helper: when the stop guard does not fire, `all` succeeds; the frame
counter is bumped by exactly one, and the message-related state fields
take their copied/printed values. -/
theorem line_all_run (progress : Tree.Root) (state : Line.State)
    (config : Line.Options)
    (h : (!config.keep_running_if_progress_is_empty &&
      progress.tasks.isEmpty) = false) :
    (Line.all progress state config).err = none ∧
    (Line.all progress state config).state.ticks = state.ticks + 1 ∧
    (Line.all progress state config).state.messages =
      (Line.copy_new_messages progress.messages state.messages
        state.from_copying).1 ∧
    (Line.all progress state config).state.from_copying =
      some (Line.copy_new_messages progress.messages state.messages
        state.from_copying).2 ∧
    (Line.all progress state config).state.max_message_origin_size =
      (Line.messagesStep config.colored config.timestamp
        state.max_message_origin_size
        (Line.copy_new_messages progress.messages state.messages
          state.from_copying).1).1 := by
  simp only [Line.all, h, Bool.false_eq_true, if_false]
  split <;> simp

/-- C3: assuming the underlying writer never fails (writes are modelled as
pure list appends), `all` returns an error iff the task-tree snapshot is
empty and `keep_running_if_progress_is_empty` is false; the error is the
fixed benign stop signal (`ErrorKind::Other` with message
"stop as progress is empty", distinguishable by inspection), and when it
is returned nothing at all is printed, in particular nothing for the tree
section. -/
theorem claim_C3_empty_tree_stop :
    ∀ (progress : Tree.Root) (state : Line.State) (config : Line.Options),
      (((Line.all progress state config).err ≠ none) ↔
        (progress.tasks = [] ∧
          config.keep_running_if_progress_is_empty = false)) ∧
      ((Line.all progress state config).err ≠ none →
        (Line.all progress state config).err =
          some { kind := Line.ErrorKind.Other,
                 message := "stop as progress is empty" } ∧
        (Line.all progress state config).out = []) := by
  intro progress state config
  by_cases h : (!config.keep_running_if_progress_is_empty &&
    progress.tasks.isEmpty) = true
  · have heq := line_all_stop progress state config h
    simp only [Bool.and_eq_true, Bool.not_eq_true', List.isEmpty_iff] at h
    rw [heq]
    simp [h.1, h.2]
  · have hf : (!config.keep_running_if_progress_is_empty &&
      progress.tasks.isEmpty) = false := by
      exact Bool.not_eq_true _ ▸ eq_false_of_ne_true h
    have hrun := line_all_run progress state config hf
    simp only [Bool.and_eq_false_iff, Bool.not_eq_false'] at hf
    rw [hrun.1]
    simp only [ne_eq, not_true_eq_false, false_iff, not_and, false_implies, and_true]
    intro hnil
    rcases hf with hk | hne
    · intro hkf; rw [hk] at hkf; cases hkf
    · intro _
      rw [hnil] at hne
      simp at hne

/-- Witness for C3: an empty tree with `keep_running_if_progress_is_empty`
disabled yields exactly the benign stop error and empty output; a
one-task tree succeeds. -/
theorem claim_C3_empty_tree_stop_witness :
    ((Line.all ⟨[], []⟩ {} { keep_running_if_progress_is_empty := false }).err
        ≠ none ↔ (([] : List (Tree.Key × Tree.Value)) = [] ∧ false = false)) ∧
    (Line.all ⟨[], []⟩ {} { keep_running_if_progress_is_empty := false }).err =
      some { kind := Line.ErrorKind.Other,
             message := "stop as progress is empty" } ∧
    (Line.all ⟨[], []⟩ {} { keep_running_if_progress_is_empty := false }).out
      = [] ∧
    (Line.all ⟨[(⟨0⟩, ⟨"a"⟩)], []⟩ {}
      { keep_running_if_progress_is_empty := false }).err = none :=
  ⟨(claim_C3_empty_tree_stop ⟨[], []⟩ {}
      { keep_running_if_progress_is_empty := false }).1,
    ((claim_C3_empty_tree_stop ⟨[], []⟩ {}
      { keep_running_if_progress_is_empty := false }).2 (by decide)).1,
    ((claim_C3_empty_tree_stop ⟨[], []⟩ {}
      { keep_running_if_progress_is_empty := false }).2 (by decide)).2,
    by decide⟩

/-- C9: when `all` returns the empty-tree stop error, no chunks have been
written and every Render State field except the refreshed tree scratch
buffer is unchanged — the message cursor, the accumulated messages, the
maximum origin width, `blocks_per_line` and `ticks` all keep their prior
values; `ticks` is incremented exactly on successful calls. -/
theorem claim_C9_error_preserves_state :
    ∀ (progress : Tree.Root) (state : Line.State) (config : Line.Options),
      ((Line.all progress state config).err ≠ none →
        (Line.all progress state config).out = [] ∧
        (Line.all progress state config).state.from_copying =
          state.from_copying ∧
        (Line.all progress state config).state.messages = state.messages ∧
        (Line.all progress state config).state.max_message_origin_size =
          state.max_message_origin_size ∧
        (Line.all progress state config).state.blocks_per_line =
          state.blocks_per_line ∧
        (Line.all progress state config).state.ticks = state.ticks ∧
        (Line.all progress state config).state.tree = progress.tasks) ∧
      ((Line.all progress state config).err = none →
        (Line.all progress state config).state.ticks = state.ticks + 1) := by
  intro progress state config
  by_cases h : (!config.keep_running_if_progress_is_empty &&
    progress.tasks.isEmpty) = true
  · have heq := line_all_stop progress state config h
    rw [heq]
    exact ⟨fun _ => ⟨rfl, rfl, rfl, rfl, rfl, rfl, rfl⟩, by simp⟩
  · have hf : (!config.keep_running_if_progress_is_empty &&
      progress.tasks.isEmpty) = false := by
      exact Bool.not_eq_true _ ▸ eq_false_of_ne_true h
    have hrun := line_all_run progress state config hf
    refine ⟨fun herr => absurd hrun.1 herr, fun _ => hrun.2.1⟩

/-- Witness for C9: the failing call on an empty tree leaves every retained
field of a fully populated Render State unchanged (only the tree scratch
buffer is refreshed), and a succeeding call bumps `ticks` from 5 to 6. -/
theorem claim_C9_error_preserves_state_witness :
    ((Line.all ⟨[], []⟩
        { messages := [⟨0, Tree.MessageLevel.Info, "o", "m"⟩],
          from_copying := some 1, max_message_origin_size := 4,
          blocks_per_line := [7, 2], ticks := 5 }
        { keep_running_if_progress_is_empty := false }).err ≠ none) ∧
    (Line.all ⟨[], []⟩
      { messages := [⟨0, Tree.MessageLevel.Info, "o", "m"⟩],
        from_copying := some 1, max_message_origin_size := 4,
        blocks_per_line := [7, 2], ticks := 5 }
      { keep_running_if_progress_is_empty := false }).out = [] ∧
    (Line.all ⟨[], []⟩
      { messages := [⟨0, Tree.MessageLevel.Info, "o", "m"⟩],
        from_copying := some 1, max_message_origin_size := 4,
        blocks_per_line := [7, 2], ticks := 5 }
      { keep_running_if_progress_is_empty := false }).state.ticks = 5 ∧
    (Line.all ⟨[(⟨0⟩, ⟨"a"⟩)], []⟩
      { messages := [⟨0, Tree.MessageLevel.Info, "o", "m"⟩],
        from_copying := some 1, max_message_origin_size := 4,
        blocks_per_line := [7, 2], ticks := 5 }
      { keep_running_if_progress_is_empty := false }).state.ticks = 6 :=
  ⟨by decide,
    ((claim_C9_error_preserves_state ⟨[], []⟩
      { messages := [⟨0, Tree.MessageLevel.Info, "o", "m"⟩],
        from_copying := some 1, max_message_origin_size := 4,
        blocks_per_line := [7, 2], ticks := 5 }
      { keep_running_if_progress_is_empty := false }).1 (by decide)).1,
    ((claim_C9_error_preserves_state ⟨[], []⟩
      { messages := [⟨0, Tree.MessageLevel.Info, "o", "m"⟩],
        from_copying := some 1, max_message_origin_size := 4,
        blocks_per_line := [7, 2], ticks := 5 }
      { keep_running_if_progress_is_empty := false }).1 (by decide)).2.2.2.2.2.1,
    (claim_C9_error_preserves_state ⟨[(⟨0⟩, ⟨"a"⟩)], []⟩
      { messages := [⟨0, Tree.MessageLevel.Info, "o", "m"⟩],
        from_copying := some 1, max_message_origin_size := 4,
        blocks_per_line := [7, 2], ticks := 5 }
      { keep_running_if_progress_is_empty := false }).2 (by decide)⟩

/-- Helper: a brush-painted chunk is text, never cursor movement or a line
overwrite. -/
theorem paint_not_cursor (colored : Bool) (sp : StyleSpec) (s : String) :
    (paint colored sp s).isCursorOrOverwrite = false := by
  unfold paint
  split <;> rfl

/-- Helper: every chunk a message line emits is plain or styled text or a
newline. -/
theorem messageLineChunks_all_text (colored timestamp : Bool) (mx : Nat)
    (m : Tree.Message) :
    (Line.messageLineChunks colored timestamp mx m).all
      (fun c => !c.isCursorOrOverwrite) = true := by
  cases timestamp <;> cases colored <;> rfl

/-- Helper: the whole message section consists of text and newlines only. -/
theorem messagesStep_all_text (colored timestamp : Bool)
    (ms : List Tree.Message) :
    ∀ mx, ((Line.messagesStep colored timestamp mx ms).2).all
      (fun c => !c.isCursorOrOverwrite) = true := by
  induction ms with
  | nil => intro mx; rfl
  | cons m ms ih =>
    intro mx
    simp only [Line.messagesStep, List.all_append, Bool.and_eq_true]
    exact ⟨messageLineChunks_all_text .., ih _⟩

/-- Helper: with output not targeting a terminal and the stop guard not
firing, `all` emits exactly the message section and keeps
`blocks_per_line`. -/
theorem line_all_non_terminal (progress : Tree.Root) (state : Line.State)
    (config : Line.Options)
    (hg : (!config.keep_running_if_progress_is_empty &&
      progress.tasks.isEmpty) = false)
    (ht : config.output_is_terminal = false) :
    (Line.all progress state config).out =
      (Line.messagesStep config.colored config.timestamp
        state.max_message_origin_size
        (Line.copy_new_messages progress.messages state.messages
          state.from_copying).1).2 ∧
    (Line.all progress state config).state.blocks_per_line =
      state.blocks_per_line := by
  simp [Line.all, hg, ht]

/-- C8: with `output_is_terminal = false` the tree-drawing and erasure
steps are skipped entirely: only the message section is printed, no
cursor-movement or line-overwrite chunk is emitted, and `blocks_per_line`
is left unchanged — so across any sequence of such calls the cumulative
output is append-only. -/
theorem claim_C8_non_terminal_append_only :
    ∀ (progress : Tree.Root) (state : Line.State) (config : Line.Options),
      config.output_is_terminal = false →
      (Line.all progress state config).state.blocks_per_line =
        state.blocks_per_line ∧
      ((Line.all progress state config).err = none →
        (Line.all progress state config).out =
          (Line.messagesStep config.colored config.timestamp
            state.max_message_origin_size
            (Line.copy_new_messages progress.messages state.messages
              state.from_copying).1).2) ∧
      (∀ c ∈ (Line.all progress state config).out,
        OutChunk.isCursorOrOverwrite c = false) := by
  intro progress state config ht
  by_cases hg : (!config.keep_running_if_progress_is_empty &&
    progress.tasks.isEmpty) = true
  · have heq := line_all_stop progress state config hg
    rw [heq]
    refine ⟨rfl, ?_, ?_⟩
    · intro h
      cases h
    · intro c hc
      cases hc
  · have hgf : (!config.keep_running_if_progress_is_empty &&
      progress.tasks.isEmpty) = false := by
      exact Bool.not_eq_true _ ▸ eq_false_of_ne_true hg
    obtain ⟨hout, hblocks⟩ := line_all_non_terminal progress state config hgf ht
    refine ⟨hblocks, fun _ => hout, ?_⟩
    intro c hc
    rw [hout] at hc
    have := messagesStep_all_text config.colored config.timestamp
      (Line.copy_new_messages progress.messages state.messages
        state.from_copying).1 state.max_message_origin_size
    rw [List.all_eq_true] at this
    have hcc := this c hc
    simpa using hcc

/-- Witness for C8: a non-terminal render over a one-task tree with one
log message prints exactly the message section, no cursor chunks, and
keeps the (populated) width record. -/
theorem claim_C8_non_terminal_append_only_witness :
    (({ output_is_terminal := false } : Line.Options).output_is_terminal
      = false) ∧
    (Line.all ⟨[(⟨0⟩, ⟨"a"⟩)], [⟨0, Tree.MessageLevel.Info, "o", "m"⟩]⟩
      { blocks_per_line := [3, 4] }
      { output_is_terminal := false }).state.blocks_per_line = [3, 4] ∧
    (Line.all ⟨[(⟨0⟩, ⟨"a"⟩)], [⟨0, Tree.MessageLevel.Info, "o", "m"⟩]⟩
      { blocks_per_line := [3, 4] }
      { output_is_terminal := false }).out =
      (Line.messagesStep true false 0
        [⟨0, Tree.MessageLevel.Info, "o", "m"⟩]).2 ∧
    (∀ c ∈ (Line.all ⟨[(⟨0⟩, ⟨"a"⟩)], [⟨0, Tree.MessageLevel.Info, "o", "m"⟩]⟩
        { blocks_per_line := [3, 4] }
        { output_is_terminal := false }).out,
      OutChunk.isCursorOrOverwrite c = false) := by
  have h := claim_C8_non_terminal_append_only
    ⟨[(⟨0⟩, ⟨"a"⟩)], [⟨0, Tree.MessageLevel.Info, "o", "m"⟩]⟩
    { blocks_per_line := [3, 4] } { output_is_terminal := false } rfl
  exact ⟨rfl, h.1, h.2.1 (by decide), h.2.2⟩

/-- Helper: raising the starting maximum only: the recorded maximum origin
width never decreases over a batch of messages. -/
theorem messagesStep_fst_le (colored timestamp : Bool)
    (ms : List Tree.Message) :
    ∀ mx, mx ≤ (Line.messagesStep colored timestamp mx ms).1 := by
  induction ms with
  | nil => intro mx; exact le_refl _
  | cons m ms ih =>
    intro mx
    simp only [Line.messagesStep]
    exact le_trans (Nat.le_max_left _ _) (ih _)

/-- Helper: processing one more message takes the maximum of the recorded
width and that message's origin width. -/
theorem messagesStep_fst_append (colored timestamp : Bool) (m : Tree.Message) :
    ∀ (ms : List Tree.Message) (mx : Nat),
      (Line.messagesStep colored timestamp mx (ms ++ [m])).1 =
        Nat.max (Line.messagesStep colored timestamp mx ms).1
          (strWidth m.origin) := by
  intro ms
  induction ms with
  | nil => intro mx; simp [Line.messagesStep]
  | cons m2 ms ih =>
    intro mx
    simp only [List.cons_append, Line.messagesStep]
    exact ih _

/-- C6: the recorded maximum message-origin width is monotonically
non-decreasing: after each message it equals the max of the previous
record and that message's origin width; it never decreases across render
calls; and origins of widths 3, 7, 4 in that order yield recorded maxima
3, 7, 7. -/
theorem claim_C6_monotone_origin_width :
    (∀ (colored timestamp : Bool) (mx : Nat) (ms : List Tree.Message),
      mx ≤ (Line.messagesStep colored timestamp mx ms).1) ∧
    (∀ (colored timestamp : Bool) (mx : Nat) (ms : List Tree.Message)
        (m : Tree.Message),
      (Line.messagesStep colored timestamp mx (ms ++ [m])).1 =
        Nat.max (Line.messagesStep colored timestamp mx ms).1
          (strWidth m.origin)) ∧
    (∀ (progress : Tree.Root) (state : Line.State) (config : Line.Options),
      state.max_message_origin_size ≤
        (Line.all progress state config).state.max_message_origin_size) ∧
    ((Line.messagesStep true false 0
        [⟨0, Tree.MessageLevel.Info, "abc", "m1"⟩]).1 = 3 ∧
      (Line.messagesStep true false 0
        [⟨0, Tree.MessageLevel.Info, "abc", "m1"⟩,
         ⟨1, Tree.MessageLevel.Success, "abcdefg", "m2"⟩]).1 = 7 ∧
      (Line.messagesStep true false 0
        [⟨0, Tree.MessageLevel.Info, "abc", "m1"⟩,
         ⟨1, Tree.MessageLevel.Success, "abcdefg", "m2"⟩,
         ⟨2, Tree.MessageLevel.Failure, "abcd", "m3"⟩]).1 = 7) := by
  refine ⟨fun colored timestamp mx ms => messagesStep_fst_le colored timestamp ms mx,
    fun colored timestamp mx ms m => messagesStep_fst_append colored timestamp m ms mx,
    ?_, by decide, by decide, by decide⟩
  intro progress state config
  by_cases hg : (!config.keep_running_if_progress_is_empty &&
    progress.tasks.isEmpty) = true
  · rw [line_all_stop progress state config hg]
  · have hgf : (!config.keep_running_if_progress_is_empty &&
      progress.tasks.isEmpty) = false := by
      exact Bool.not_eq_true _ ▸ eq_false_of_ne_true hg
    have hrun := line_all_run progress state config hgf
    rw [hrun.2.2.2.2]
    exact messagesStep_fst_le config.colored config.timestamp _ _

/-- Helper: a run of `n` spaces has display width `n`. -/
theorem spaces_width (n : Nat) : strWidth (Prodash.spaces n) = n := by
  simp [strWidth, Prodash.spaces, String.length]

/-- C7 counterexample: the claim says the origin field is printed
*right-padded* with spaces to the maximum origin width. At origin `"a"`
with running maximum width 3, the source emits
`format!("{:>fill_size$}{}", "", origin)`, i.e. the two pad spaces come
*before* the origin: the field is `"  a"`, which is the left-padded
(right-aligned) form and differs from the right-padded `"a  "`. -/
theorem claim_C7_counterexample :
    Line.messageLineChunks true false 3
      { time := 0, level := Tree.MessageLevel.Info, origin := "a",
        message := "hi" } =
      [OutChunk.raw " ",
       OutChunk.styled { dimmed := true } "  a",
       OutChunk.raw " ",
       OutChunk.styled { fg := some Color.White, bold := true } "hi",
       OutChunk.newline] ∧
    "  a" = Prodash.spaces 2 ++ "a" ∧
    ¬ "  a" = "a" ++ Prodash.spaces 2 := by
  refine ⟨?_, by decide, by decide⟩
  decide

/-- C7 (amended): for every message printed in line mode, the origin field
is printed left-padded (right-aligned) with spaces to the maximum origin
width seen so far — the padded field has exactly that width — followed by
the message text painted bold in the level color (White for Info, Green
for Success, Red for Failure); and a timestamp prefix is emitted if and
only if timestamps are enabled. Each message in a batch is printed
against the running maximum updated to cover its own origin. -/
theorem claim_C7_message_format :
    Line.to_color Tree.MessageLevel.Info = Color.White ∧
    Line.to_color Tree.MessageLevel.Success = Color.Green ∧
    Line.to_color Tree.MessageLevel.Failure = Color.Red ∧
    (∀ (timestamp : Bool) (mx : Nat) (m : Tree.Message),
      Line.messageLineChunks true timestamp mx m =
        [OutChunk.raw " "] ++
        (if timestamp then
          [OutChunk.styled
            { fg := some (Line.to_color m.level), bg := some Color.Yellow,
              dimmed := true }
            (Line.format_time_for_messages m.time),
           OutChunk.raw " "]
        else []) ++
        [OutChunk.styled { dimmed := true }
          (Prodash.spaces (mx - strWidth m.origin) ++ m.origin),
         OutChunk.raw " ",
         OutChunk.styled { fg := some (Line.to_color m.level), bold := true }
           m.message,
         OutChunk.newline]) ∧
    (∀ (mx : Nat) (m : Tree.Message), strWidth m.origin ≤ mx →
      strWidth (Prodash.spaces (mx - strWidth m.origin) ++ m.origin) = mx) ∧
    (∀ (colored timestamp : Bool) (mx : Nat) (m : Tree.Message)
        (ms : List Tree.Message),
      (Line.messagesStep colored timestamp mx (m :: ms)).2 =
        Line.messageLineChunks colored timestamp
            (Nat.max mx (strWidth m.origin)) m ++
          (Line.messagesStep colored timestamp
            (Nat.max mx (strWidth m.origin)) ms).2) := by
  refine ⟨rfl, rfl, rfl, ?_, ?_, fun colored timestamp mx m ms => rfl⟩
  · intro timestamp mx m
    cases timestamp <;> rfl
  · intro mx m h
    have : strWidth (Prodash.spaces (mx - strWidth m.origin) ++ m.origin) =
        (mx - strWidth m.origin) + strWidth m.origin := by
      simp [strWidth, String.length_append, spaces_width]
      have := spaces_width (mx - strWidth m.origin)
      simp [strWidth] at this
      rw [this]
    rw [this]
    exact Nat.sub_add_cancel h

/-- Witness for C7 (amended): at origin `"a"` and running maximum 3 the
padded origin field `"  a"` has width exactly 3. -/
theorem claim_C7_message_format_witness :
    strWidth "a" ≤ 3 ∧
    strWidth (Prodash.spaces (3 - strWidth "a") ++ "a") = 3 :=
  ⟨by decide,
    claim_C7_message_format.2.2.2.2.1 3
      { time := 0, level := Tree.MessageLevel.Info, origin := "a",
        message := "hi" } (by decide)⟩

/-- Helper: the width list produced by the per-line drawing loop is the
current width of each drawn line, with the entries beyond the zip left
untouched. -/
theorem drawTreeLines_fst (ticks : Nat) :
    ∀ (tasks : List (Tree.Key × Tree.Value)) (blocks : List Nat),
      (Line.drawTreeLines ticks tasks blocks).1 =
        (tasks.zip blocks).map (fun p =>
          Line.block_count_sans_ansi_codes
            (Line.format_progress p.1.1 p.1.2 ticks)) ++
          blocks.drop tasks.length := by
  intro tasks
  induction tasks with
  | nil =>
    intro blocks
    simp [Line.drawTreeLines]
  | cons kv tasks ih =>
    intro blocks
    cases blocks with
    | nil => simp [Line.drawTreeLines]
    | cons b bs =>
      obtain ⟨k, v⟩ := kv
      simp [Line.drawTreeLines, ih bs]

/-- Helper: the chunks produced by the per-line drawing loop are, for each
drawn (task, recorded width) pair, the task's tokens followed by the
pad-or-newline tail. -/
theorem drawTreeLines_snd (ticks : Nat) :
    ∀ (tasks : List (Tree.Key × Tree.Value)) (blocks : List Nat),
      (Line.drawTreeLines ticks tasks blocks).2 =
        ((tasks.zip blocks).map (fun p =>
          Line.format_progress p.1.1 p.1.2 ticks ++
            [Line.lineTail p.2 (Line.block_count_sans_ansi_codes
              (Line.format_progress p.1.1 p.1.2 ticks))])).flatten := by
  intro tasks
  induction tasks with
  | nil =>
    intro blocks
    simp [Line.drawTreeLines]
  | cons kv tasks ih =>
    intro blocks
    cases blocks with
    | nil => simp [Line.drawTreeLines]
    | cons b bs =>
      obtain ⟨k, v⟩ := kv
      simp [Line.drawTreeLines, ih bs]

/-- Helper: the tree section in the shrink case (the previously tracked
line count exceeds the visible count): the record is replaced by the
current widths of the drawn lines, and after the drawn lines each
now-unused line is blanked to its recorded width, followed by a cursor
move up by the full previously-tracked count. -/
theorem treeSection_shrink (config : Line.Options) (ticks : Nat)
    (tree : List (Tree.Key × Tree.Value)) (blocks : List Nat)
    (h : (Line.filterVisible config tree).length < blocks.length) :
    Line.treeSection config ticks tree blocks =
      (((Line.filterVisible config tree).zip blocks).map (fun p =>
          Line.block_count_sans_ansi_codes
            (Line.format_progress p.1.1 p.1.2 ticks)),
        (Line.drawTreeLines ticks (Line.filterVisible config tree) blocks).2
          ++ (blocks.drop (Line.filterVisible config tree).length).map
            OutChunk.padNewline
          ++ [OutChunk.moveUp blocks.length]) := by
  have hnot : ¬ blocks.length < (Line.filterVisible config tree).length :=
    Nat.not_lt.mpr (le_of_lt h)
  have hW : (((Line.filterVisible config tree).zip blocks).map (fun p =>
      Line.block_count_sans_ansi_codes
        (Line.format_progress p.1.1 p.1.2 ticks))).length =
      (Line.filterVisible config tree).length := by
    simp [Nat.min_eq_left (le_of_lt h)]
  simp only [Line.treeSection, if_neg hnot, gt_iff_lt, if_pos h,
    drawTreeLines_fst]
  rw [Prod.mk.injEq]
  constructor
  · rw [← hW, List.take_left]
  · rw [← hW, List.drop_left]

/-- Helper: the tree section when nothing shrank (the previously tracked
count is at most the visible count): the record is first grown with
zeros to the visible count, the drawn lines replace it entirely, and the
cursor moves up by exactly the visible-line count. -/
theorem treeSection_grow (config : Line.Options) (ticks : Nat)
    (tree : List (Tree.Key × Tree.Value)) (blocks : List Nat)
    (h : blocks.length ≤ (Line.filterVisible config tree).length) :
    Line.treeSection config ticks tree blocks =
      (((Line.filterVisible config tree).zip
          (blocks ++ List.replicate
            ((Line.filterVisible config tree).length - blocks.length) 0)).map
          (fun p => Line.block_count_sans_ansi_codes
            (Line.format_progress p.1.1 p.1.2 ticks)),
        (Line.drawTreeLines ticks (Line.filterVisible config tree)
          (blocks ++ List.replicate
            ((Line.filterVisible config tree).length - blocks.length) 0)).2
          ++ [OutChunk.moveUp (Line.filterVisible config tree).length]) := by
  by_cases hlt : blocks.length < (Line.filterVisible config tree).length
  · have hlen0 : (blocks ++ List.replicate
        ((Line.filterVisible config tree).length - blocks.length) 0).length =
        (Line.filterVisible config tree).length := by
      simp [Nat.add_sub_cancel' (le_of_lt hlt)]
    have hnotgt : ¬ (Line.filterVisible config tree).length <
        (blocks ++ List.replicate
          ((Line.filterVisible config tree).length - blocks.length) 0).length := by
      rw [hlen0]
      exact lt_irrefl _
    have hdrop : (blocks ++ List.replicate
        ((Line.filterVisible config tree).length - blocks.length) 0).drop
          (Line.filterVisible config tree).length = [] :=
      List.drop_of_length_le (le_of_eq hlen0)
    simp only [Line.treeSection, if_pos hlt, gt_iff_lt, if_neg hnotgt,
      drawTreeLines_fst, hdrop, List.append_nil]
  · have heq : blocks.length = (Line.filterVisible config tree).length :=
      le_antisymm h (Nat.not_lt.mp hlt)
    have hrep : List.replicate
        ((Line.filterVisible config tree).length - blocks.length) (0 : Nat)
        = [] := by
      rw [← heq, Nat.sub_self]
      rfl
    have hnotgt : ¬ (Line.filterVisible config tree).length < blocks.length := by
      rw [heq]
      exact lt_irrefl _
    have hdrop : blocks.drop (Line.filterVisible config tree).length = [] :=
      List.drop_of_length_le (le_of_eq heq)
    simp only [Line.treeSection, if_neg hlt, gt_iff_lt, if_neg hnotgt,
      drawTreeLines_fst, hdrop, hrep, List.append_nil]

/-- Helper: the successful terminal-mode `all` call emits the message
section followed by the tree section, and stores the tree section's new
width record. -/
theorem line_all_terminal (progress : Tree.Root) (state : Line.State)
    (config : Line.Options)
    (hg : (!config.keep_running_if_progress_is_empty &&
      progress.tasks.isEmpty) = false)
    (ht : config.output_is_terminal = true) :
    (Line.all progress state config).out =
      (Line.messagesStep config.colored config.timestamp
        state.max_message_origin_size
        (Line.copy_new_messages progress.messages state.messages
          state.from_copying).1).2
      ++ (Line.treeSection config state.ticks progress.tasks
        state.blocks_per_line).2 ∧
    (Line.all progress state config).state.blocks_per_line =
      (Line.treeSection config state.ticks progress.tasks
        state.blocks_per_line).1 := by
  simp [Line.all, hg, ht]

/-- C2: in line mode with terminal output, for every frame: a visible line
whose printed width is less than the width recorded for it in the previous
frame is padded with spaces to the old width before its newline (the pad
is exactly `old - cur` wide), otherwise a plain newline is emitted; the
new width is recorded for the next frame; and if the number of visible
lines shrank versus the previous frame, each now-unused line is blanked
to its last recorded width, the cursor moves up by the total
previously-tracked line count and the tracked-width list shrinks to the
new count, while otherwise the cursor moves up by exactly the new
visible-line count. -/
theorem claim_C2_line_diff :
    (∀ old cur : Nat, cur < old →
      Line.lineTail old cur = OutChunk.padNewline (old - cur) ∧
      cur + chunkWidth (Line.lineTail old cur) = old) ∧
    (∀ old cur : Nat, old ≤ cur →
      Line.lineTail old cur = OutChunk.newline) ∧
    (∀ (ticks : Nat) (tasks : List (Tree.Key × Tree.Value))
        (blocks : List Nat),
      (Line.drawTreeLines ticks tasks blocks).2 =
        ((tasks.zip blocks).map (fun p =>
          Line.format_progress p.1.1 p.1.2 ticks ++
            [Line.lineTail p.2 (Line.block_count_sans_ansi_codes
              (Line.format_progress p.1.1 p.1.2 ticks))])).flatten ∧
      (Line.drawTreeLines ticks tasks blocks).1 =
        (tasks.zip blocks).map (fun p =>
          Line.block_count_sans_ansi_codes
            (Line.format_progress p.1.1 p.1.2 ticks)) ++
          blocks.drop tasks.length) ∧
    (∀ (progress : Tree.Root) (state : Line.State) (config : Line.Options),
      config.output_is_terminal = true →
      (Line.all progress state config).err = none →
      ((Line.filterVisible config progress.tasks).length <
          state.blocks_per_line.length →
        (Line.all progress state config).state.blocks_per_line =
          ((Line.filterVisible config progress.tasks).zip
            state.blocks_per_line).map (fun p =>
              Line.block_count_sans_ansi_codes
                (Line.format_progress p.1.1 p.1.2 state.ticks)) ∧
        ∃ front, (Line.all progress state config).out =
          front ++ (state.blocks_per_line.drop
              (Line.filterVisible config progress.tasks).length).map
              OutChunk.padNewline
            ++ [OutChunk.moveUp state.blocks_per_line.length]) ∧
      (state.blocks_per_line.length ≤
          (Line.filterVisible config progress.tasks).length →
        (Line.all progress state config).out.getLast? =
          some (OutChunk.moveUp
            (Line.filterVisible config progress.tasks).length) ∧
        (Line.all progress state config).state.blocks_per_line.length =
          (Line.filterVisible config progress.tasks).length)) := by
  refine ⟨?_, ?_, ?_, ?_⟩
  · intro old cur h
    have hgt : old > cur := h
    refine ⟨by simp [Line.lineTail, hgt], ?_⟩
    simp only [Line.lineTail, if_pos hgt, chunkWidth]
    exact Nat.add_sub_cancel' (le_of_lt h)
  · intro old cur h
    simp [Line.lineTail, Nat.not_lt.mpr h]
  · intro ticks tasks blocks
    exact ⟨drawTreeLines_snd ticks tasks blocks, drawTreeLines_fst ticks tasks blocks⟩
  · intro progress state config ht herr
    have hg : (!config.keep_running_if_progress_is_empty &&
        progress.tasks.isEmpty) = false := by
      by_cases hgg : (!config.keep_running_if_progress_is_empty &&
        progress.tasks.isEmpty) = true
      · exfalso
        have := line_all_stop progress state config hgg
        rw [this] at herr
        cases herr
      · exact Bool.not_eq_true _ ▸ eq_false_of_ne_true hgg
    obtain ⟨hout, hblocks⟩ := line_all_terminal progress state config hg ht
    constructor
    · intro hlt
      rw [treeSection_shrink config state.ticks progress.tasks
        state.blocks_per_line hlt] at hout hblocks
      refine ⟨hblocks, ⟨(Line.messagesStep config.colored config.timestamp
          state.max_message_origin_size
          (Line.copy_new_messages progress.messages state.messages
            state.from_copying).1).2 ++
        (Line.drawTreeLines state.ticks
          (Line.filterVisible config progress.tasks)
          state.blocks_per_line).2, ?_⟩⟩
      rw [hout]
      simp [List.append_assoc]
    · intro hle
      rw [treeSection_grow config state.ticks progress.tasks
        state.blocks_per_line hle] at hout hblocks
      constructor
      · rw [hout, ← List.append_assoc]
        rw [List.getLast?_append_of_ne_nil _ (by simp :
          ([OutChunk.moveUp
            (Line.filterVisible config progress.tasks).length] :
              List OutChunk) ≠ [])]
        rfl
      · rw [hblocks]
        simp [Nat.add_sub_cancel' hle]

/-- Witness for C2: a line of current width 2 against a recorded width 8
is padded with 6 spaces (total printed width 8); an unchanged width 5
emits a plain newline; and a frame with previous widths `[5, 8, 3]` but
only two visible lines blanks the third line to width 3 and moves the
cursor up by 3 (the previously tracked count), shrinking the record to
the two new widths. -/
theorem claim_C2_line_diff_witness :
    ((2 : Nat) < 8 ∧ Line.lineTail 8 2 = OutChunk.padNewline 6 ∧
      2 + chunkWidth (Line.lineTail 8 2) = 8) ∧
    ((5 : Nat) ≤ 5 ∧ Line.lineTail 5 5 = OutChunk.newline) ∧
    (({} : Line.Options).output_is_terminal = true ∧
      (Line.all ⟨[(⟨0⟩, ⟨"a"⟩), (⟨1⟩, ⟨"b"⟩)], []⟩
        { blocks_per_line := [5, 8, 3] } {}).err = none ∧
      (Line.filterVisible {} [(⟨0⟩, ⟨"a"⟩), (⟨1⟩, ⟨"b"⟩)]).length < 3 ∧
      ((Line.all ⟨[(⟨0⟩, ⟨"a"⟩), (⟨1⟩, ⟨"b"⟩)], []⟩
          { blocks_per_line := [5, 8, 3] } {}).state.blocks_per_line =
          [112, 113] ∧
        ∃ front, (Line.all ⟨[(⟨0⟩, ⟨"a"⟩), (⟨1⟩, ⟨"b"⟩)], []⟩
            { blocks_per_line := [5, 8, 3] } {}).out =
          front ++ [OutChunk.padNewline 3] ++ [OutChunk.moveUp 3])) :=
  ⟨⟨by decide, (claim_C2_line_diff.1 8 2 (by decide)).1,
      (claim_C2_line_diff.1 8 2 (by decide)).2⟩,
    ⟨by decide, claim_C2_line_diff.2.1 5 5 (by decide)⟩,
    rfl, by decide, by decide,
    (claim_C2_line_diff.2.2.2 ⟨[(⟨0⟩, ⟨"a"⟩), (⟨1⟩, ⟨"b"⟩)], []⟩
      { blocks_per_line := [5, 8, 3] } {} rfl (by decide)).1 (by decide)⟩
